import Mathlib

/-!
Verification of the client-side cache and bulk-analysis layer of the
Corpus-admin dashboard (shallow embedding of
`my_pages/contributions_page.py`, `my_pages/users_page.py`,
`my_pages/records_page.py` and `utils.py`).

Network nondeterminism is made explicit: each HTTP interaction is an input
value describing what the network did (a response with a status code and a
body, or a raised exception).  Thread-pool nondeterminism is made explicit
as the order in which the submitted units of work complete.  Times are
integer seconds; Python float division is modelled over `ℚ`.
-/

/-- A backend user entity.  The cache/analysis core only ever reads the
`id` field (`user.get('id')`, `user['id']`); all other fields are carried
opaquely and are irrelevant to the verified logic, so the embedding keeps
just the identifier.  A missing id key and an empty-string id are both
falsy in `user.get('id')`, and are both modelled as `id = ""`. -/
structure User where
  id : String
deriving DecidableEq, Repr

/-- The body of a per-user contributions response, as branched on by
`fetch_user_contributions_summary`: the JSON decodes to an object (with an
optional integer `total_contributions` field, per the backend contract),
decodes to something that is not an object, or fails to decode
(`r.json()` raises). -/
inductive DeriveBody where
  | notJson
  | nonDict
  | dict (total : Option Nat)
deriving DecidableEq, Repr

/-- What the network did for one `GET /users/{id}/contributions` call:
raised an exception (connection error or the 10s timeout), or delivered a
response with the given status code and body. -/
inductive DeriveOutcome where
  | exn
  | resp (status : Nat) (body : DeriveBody)
deriving DecidableEq, Repr

/-- `fetch_user_contributions_summary(token, user_id)`
(contributions_page.py:106-122).  Returns `(user_id, total)`; every
failure branch — exception, non-200 status, non-dict body, undecodable
body — yields `(user_id, 0)`, and a 200 dict body yields
`data.get('total_contributions', 0)`. -/
def fetch_user_contributions_summary (user_id : String) (o : DeriveOutcome) :
    String × Nat :=
  match o with
  | .exn => (user_id, 0)
  | .resp status body =>
    if status = 200 then
      match body with
      | .dict total => (user_id, total.getD 0)
      | .nonDict => (user_id, 0)
      | .notJson => (user_id, 0)
    else (user_id, 0)

/-- One value of the `user_activity` dict built by
`analyze_user_activity_bulk` (contributions_page.py:168-179). -/
structure ActivityEntry where
  user : User
  total_contributions : Nat
  has_contributions : Bool
deriving DecidableEq, Repr

/-- Python dict insertion (`m[k] = v`): overwrite the value at an existing
key in place, otherwise append the new pair at the end (insertion order is
preserved, as in CPython dicts). -/
def dictInsert {β : Type} : List (String × β) → String → β → List (String × β)
  | [], k, v => [(k, v)]
  | p :: rest, k, v => if p.1 = k then (k, v) :: rest else p :: dictInsert rest k v

/-- Python dict lookup (`m[k]` / `m.get(k)`) on the association-list model. -/
def lookupId {β : Type} : List (String × β) → String → Option β
  | [], _ => none
  | p :: rest, k => if p.1 = k then some p.2 else lookupId rest k

/-- The result-accumulation loop of `analyze_user_activity_bulk`
(contributions_page.py:164-181): iterate over the submitted futures in
completion order (`as_completed`), and for each one store
`{'user': user, 'total_contributions': t, 'has_contributions': t > 0}`
under the returned `user_id`.  `completed` is the completion order chosen
by the thread pool — always some permutation of the submitted users
(`[user for user in users if user.get('id')]`); `o` maps a user id to what
the network did for that user's derivation call.
(`fetch_user_contributions_summary` is total, so `future.result()` never
raises and the `except` arm of the loop is unreachable; it would store the
same zero entry.) -/
def buildActivity (o : String → DeriveOutcome) (completed : List User) :
    List (String × ActivityEntry) :=
  completed.foldl
    (fun m u =>
      let r := fetch_user_contributions_summary u.id (o u.id)
      dictInsert m r.1
        { user := u, total_contributions := r.2, has_contributions := decide (r.2 > 0) })
    []

/-- What the network did for one page request of a paginated list fetch
(`GET .../?skip&limit`): a JSON list body, a JSON body that is not a list,
a non-200 status, or a raised exception (connection error or a JSON decode
error, both of which land in the enclosing `except`). -/
inductive PageResp (α : Type) where
  | ok (body : List α)
  | nonList
  | httpError (code : Nat)
  | exn
deriving DecidableEq, Repr

/-- How a paginated fetch loop ended: normal termination (empty or short
page), abort on a non-200 status, abort on a non-list body, or a raised
exception. -/
inductive FetchExit where
  | done
  | httpErr
  | badFormat
  | raised
deriving DecidableEq, Repr

/-- The `while True` pagination loop shared by `fetch_all_users_batched`
(users_page.py:54-80, contributions_page.py:54-79) and `fetch_all_records`
(records_page.py:72-102): request `(skip, limit)`, stop on an empty page,
accumulate and stop on a short page, accumulate and continue (skip +=
limit) on a full page, abort on a non-200 status or a non-list body.
`server skip limit` is what the backend returns for that request; `fuel`
bounds the number of iterations so the loop is total in Lean (`none`
means the fuel ran out before the loop terminated).  Returns the
accumulated items, how the loop ended, and the number of page requests
issued. -/
def fetchLoop {α : Type} (P : Nat) (server : Nat → Nat → PageResp α) :
    Nat → Nat → Option (List α × FetchExit × Nat)
  | 0, _ => none
  | fuel + 1, skip =>
    match server skip P with
    | .exn => some ([], .raised, 1)
    | .httpError _ => some ([], .httpErr, 1)
    | .nonList => some ([], .badFormat, 1)
    | .ok body =>
      if body.isEmpty then some ([], .done, 1)
      else if body.length < P then some (body, .done, 1)
      else
        match fetchLoop P server fuel (skip + P) with
        | none => none
        | some (items, ex, c) => some (body ++ items, ex, c + 1)

/-- A healthy backend holding the list `items`: every page request
succeeds and returns the slice `items[skip : skip+limit]`. -/
def listServer {α : Type} (items : List α) : Nat → Nat → PageResp α :=
  fun skip limit => .ok ((items.drop skip).take limit)

/-- A scripted backend: the response to the i-th page request (at offset
`i * P`) is `script[i]`; requests past the end of the script get an
arbitrary error response (the theorems below always terminate within the
script). -/
def scriptServer {α : Type} (P : Nat) (script : List (PageResp α)) :
    Nat → Nat → PageResp α :=
  fun skip _ => script.getD (skip / P) (.httpError 500)

/-- The `st.session_state` keys used by the cache layer.  `none` models an
absent key (`'x' in st.session_state` false); timestamps are integer
seconds. -/
structure SessionState where
  all_users_cache : Option (List User)
  all_users_cache_timestamp : Option Int
  activity_analysis_cache : Option (List (String × ActivityEntry))
  activity_analysis_timestamp : Option Int
deriving Repr

/-- `is_cache_stale(max_age_minutes)` (contributions_page.py:24-34,
users_page.py:83-93): stale when `all_users_cache_timestamp` is absent (or
not a datetime, folded into absence here), else when
`now - timestamp > max_age_minutes * 60` seconds.  Note that it always
reads the BASE cache timestamp `all_users_cache_timestamp`, whatever
`max_age_minutes` is passed. -/
def is_cache_stale (s : SessionState) (now : Int) (max_age_minutes : Int) : Bool :=
  match s.all_users_cache_timestamp with
  | none => true
  | some ts => now - ts > max_age_minutes * 60

/-- The cache guard of `fetch_all_users_batched` (users_page.py:49-52):
`'all_users_cache' in st.session_state and st.session_state.all_users_cache
and not is_cache_stale()` — the key exists, the cached list is truthy
(non-empty), and the entry is not stale under the default 30-minute TTL. -/
def users_cache_hit (s : SessionState) (now : Int) : Bool :=
  match s.all_users_cache with
  | none => false
  | some c => !c.isEmpty && !(is_cache_stale s now 30)

/-- `fetch_all_users_batched(token, batch_size)` (users_page.py:45-80).
On a cache hit, return the cached list unchanged with no page request.
Otherwise run the pagination loop; on a raised exception the `except` arm
returns `[]` without touching the cache; on every other exit (normal,
non-200 abort, non-list abort) the accumulated list is stored in the cache
together with the current timestamp and returned.  The third component
counts the page requests issued. -/
def fetch_all_users_batched (s : SessionState) (now : Int)
    (server : Nat → Nat → PageResp User) (batch_size : Nat) (fuel : Nat) :
    Option (List User × SessionState × Nat) :=
  if users_cache_hit s now then
    some (s.all_users_cache.getD [], s, 0)
  else
    match fetchLoop batch_size server fuel 0 with
    | none => none
    | some (_, .raised, c) => some ([], s, c)
    | some (items, _, c) =>
      some (items,
        { s with all_users_cache := some items, all_users_cache_timestamp := some now },
        c)

/-- The cache guard of `analyze_user_activity_bulk`
(contributions_page.py:129-132): `'activity_analysis_cache' in
st.session_state and 'activity_analysis_timestamp' in st.session_state and
not is_cache_stale(max_age_minutes=15)`.  Both keys must exist (no
truthiness check on the cached map), and `is_cache_stale` — which reads
the BASE cache timestamp, not the analysis timestamp — must be false for a
15-minute age. -/
def analysis_cache_hit (s : SessionState) (now : Int) : Bool :=
  s.activity_analysis_cache.isSome && s.activity_analysis_timestamp.isSome &&
    !(is_cache_stale s now 15)

/-- `analyze_user_activity_bulk(token, users, max_workers)`
(contributions_page.py:125-190).  On a cache hit the cached map is
returned unchanged; otherwise the bulk engine runs (`buildActivity` over
the completion order `completed` of the submitted users) and the result is
stored under `activity_analysis_cache` with a fresh
`activity_analysis_timestamp`.  `max_workers` bounds the thread pool and
has no effect on the computed value. -/
def analyze_user_activity_bulk (s : SessionState) (now : Int)
    (o : String → DeriveOutcome) (completed : List User) (_max_workers : Nat) :
    List (String × ActivityEntry) × SessionState :=
  if analysis_cache_hit s now then
    (s.activity_analysis_cache.getD [], s)
  else
    let ua := buildActivity o completed
    (ua,
      { s with activity_analysis_cache := some ua,
               activity_analysis_timestamp := some now })

/-- One insertion step of the stable descending sort:
`sorted(pairs, key=lambda x: x[1], reverse=True)` in
`get_user_activity_statistics` (contributions_page.py:243-248).  Python's
sort is stable and `reverse=True` keeps equal-key elements in input order,
so the call is extensionally a stable sort by metric descending; this
insertion places `x` before the first element whose metric is `≤ x`'s,
which realises exactly that. -/
def insertDesc (x : User × Nat) : List (User × Nat) → List (User × Nat)
  | [] => [x]
  | y :: ys => if y.2 ≤ x.2 then x :: y :: ys else y :: insertDesc x ys

/-- Stable sort of `(user, metric)` pairs by metric descending (the
`sorted(..., key=lambda x: x[1], reverse=True)` call). -/
def sortDesc (l : List (User × Nat)) : List (User × Nat) :=
  l.foldr insertDesc []

/-- `top_n`: the top-contributors computation of
`get_user_activity_statistics` (contributions_page.py:243-248) — build
`(entry['user'], entry['total_contributions'])` pairs from the enrichment
map values in their dict (insertion) order, stable-sort by metric
descending, and keep the first `n` (the source hardcodes `n = 10`). -/
def top_n (user_activity : List (String × ActivityEntry)) (n : Nat) :
    List (User × Nat) :=
  (sortDesc (user_activity.map (fun p => (p.2.user, p.2.total_contributions)))).take n

/-- The aggregate numbers computed by `get_user_activity_statistics`
(contributions_page.py:193-260) that the claims refer to. -/
structure ActivityStats where
  total_users : Nat
  users_with_contributions : Nat
  users_with_zero_records : Nat
  activity_rate : ℚ
  total_contributions_sum : Nat
  top_contributors : List (User × Nat)
deriving Repr, DecidableEq

/-- The pure computation of `get_user_activity_statistics`
(contributions_page.py:196-248) as a function of its two data inputs: the
base collection `all_users` (from `fetch_all_users_batched`) and the
enrichment map `user_activity` (from `analyze_user_activity_bulk`).
`if not all_users: return None` guards the whole computation, so an empty
base collection yields no statistics.  Note the activity rate divides the
count of enrichment entries with contributions by `len(all_users)`, the
size of the BASE collection. -/
def get_user_activity_statistics_core (all_users : List User)
    (user_activity : List (String × ActivityEntry)) : Option ActivityStats :=
  if all_users.isEmpty then none
  else
    let total_users := all_users.length
    let users_with_contributions :=
      (user_activity.filter (fun p => p.2.has_contributions)).length
    some
      { total_users := total_users
        users_with_contributions := users_with_contributions
        users_with_zero_records := total_users - users_with_contributions
        activity_rate :=
          if total_users > 0 then
            (users_with_contributions : ℚ) / (total_users : ℚ) * 100
          else 0
        total_contributions_sum :=
          (user_activity.map (fun p => p.2.total_contributions)).sum
        top_contributors := top_n user_activity 10 }

/-- The activity-rate formula as claim C8 states it, taken over the
enrichment map alone: nonzero-metric entries divided by the MAP's total,
times 100, and 0 when the map is empty.  Stated from the claim's words, to
be compared with `get_user_activity_statistics_core`. -/
def activityRateClaimed (user_activity : List (String × ActivityEntry)) : ℚ :=
  if user_activity.length = 0 then 0
  else
    ((user_activity.filter (fun p => p.2.has_contributions)).length : ℚ) /
      (user_activity.length : ℚ) * 100

/-- A JSON value, for the API-client boundary (`utils.py`,
`users_page.py`). -/
inductive JsonVal where
  | jnull
  | jstr (s : String)
  | jnum (n : Int)
  | jbool (b : Bool)
  | jarr (xs : List JsonVal)
  | jobj (fields : List (String × JsonVal))

/-- A Python exception relevant at the API-client boundary: a
`requests` network error (connection failure, timeout), a JSON decode
error from `response.json()`, or an `AttributeError` from calling `.get`
on a non-dict. -/
inductive PyErr where
  | network
  | jsonDecode
  | attr
deriving DecidableEq, Repr

/-- An HTTP response as the API client sees it: status code, raw body
text, and the result of JSON-decoding the body (`none` means
`response.json()` raises). -/
structure HttpResponse where
  status : Nat
  text : String
  jsonBody : Option JsonVal

/-- `response.json()`: returns the decoded body or raises. -/
def pyJsonOf (r : HttpResponse) : Except PyErr JsonVal :=
  match r.jsonBody with
  | some j => .ok j
  | none => .error .jsonDecode

/-- `j.get(k, d)` on a decoded body: dict lookup with a default; raises
`AttributeError` when `j` is not a dict. -/
def pyGetD (j : JsonVal) (k : String) (d : JsonVal) : Except PyErr JsonVal :=
  match j with
  | .jobj fields =>
    .ok (((fields.find? (fun p => p.1 == k)).map (fun p => p.2)).getD d)
  | _ => .error .attr

/-- A user-facing message produced by an API-client operation, kept
symbolic: the literal success strings, the `f"Error {status}: {detail}"`
shape, the `f"Network error: {e}"` shape, and a bare detail value. -/
inductive Msg where
  | lit (s : String)
  | statusDetail (status : Nat) (detail : JsonVal)
  | networkError (e : PyErr)
  | detailMsg (j : JsonVal)

/-- `fetch_data(token, url)` (utils.py:5-18).  The input is what the
network did (`.error e` = `requests.get` raised `e`); the result is in the
`Except` monad so that an uncaught exception would surface as `.error` —
the claim is that it never does.  200 → decoded body; other statuses →
`[]`; any exception → `[]`. -/
def fetch_data (net : Except PyErr HttpResponse) : Except PyErr JsonVal :=
  tryCatch
    (do
      let r ← net
      if r.status = 200 then pyJsonOf r
      else pure (JsonVal.jarr []))
    (fun _ => pure (JsonVal.jarr []))

/-- `create_data(token, url, payload)` (utils.py:20-38).  200/201 →
success; otherwise the error detail is `response.json().get("detail",
response.text)` when the body text is non-empty (the decode may itself
raise, landing in the outer handler) and `"Unknown error"` when it is
empty. -/
def create_data (net : Except PyErr HttpResponse) (_payload : JsonVal) :
    Except PyErr (Bool × Msg) :=
  tryCatch
    (do
      let r ← net
      if r.status = 200 ∨ r.status = 201 then
        pure (true, Msg.lit "Created successfully")
      else if r.text ≠ "" then do
        let j ← pyJsonOf r
        let d ← pyGetD j "detail" (.jstr r.text)
        pure (false, Msg.statusDetail r.status d)
      else pure (false, Msg.statusDetail r.status (.jstr "Unknown error")))
    (fun e => pure (false, Msg.networkError e))

/-- `update_data(token, url, payload)` (utils.py:40-57); like
`create_data` with 200 as the only success status. -/
def update_data (net : Except PyErr HttpResponse) (_payload : JsonVal) :
    Except PyErr (Bool × Msg) :=
  tryCatch
    (do
      let r ← net
      if r.status = 200 then
        pure (true, Msg.lit "Updated successfully")
      else if r.text ≠ "" then do
        let j ← pyJsonOf r
        let d ← pyGetD j "detail" (.jstr r.text)
        pure (false, Msg.statusDetail r.status d)
      else pure (false, Msg.statusDetail r.status (.jstr "Unknown error")))
    (fun e => pure (false, Msg.networkError e))

/-- `delete_data(token, url)` (utils.py:59-75); success statuses 200 and
204. -/
def delete_data (net : Except PyErr HttpResponse) :
    Except PyErr (Bool × Msg) :=
  tryCatch
    (do
      let r ← net
      if r.status = 200 ∨ r.status = 204 then
        pure (true, Msg.lit "Deleted successfully")
      else if r.text ≠ "" then do
        let j ← pyJsonOf r
        let d ← pyGetD j "detail" (.jstr r.text)
        pure (false, Msg.statusDetail r.status d)
      else pure (false, Msg.statusDetail r.status (.jstr "Unknown error")))
    (fun e => pure (false, Msg.networkError e))

/-- `create_user(token, ...)` (users_page.py:96-116).  201 → success;
otherwise `r.json().get("detail", "Error creating user.")` (which may
raise into the outer handler). -/
def create_user (net : Except PyErr HttpResponse) :
    Except PyErr (Bool × Msg) :=
  tryCatch
    (do
      let r ← net
      if r.status = 201 then
        pure (true, Msg.lit "User created successfully.")
      else do
        let j ← pyJsonOf r
        let d ← pyGetD j "detail" (.jstr "Error creating user.")
        pure (false, Msg.detailMsg d))
    (fun e => pure (false, Msg.networkError e))

/-- `delete_user(token, user_id)` (users_page.py:151-168).  Returns
`(success, message, status)`; both body decodes are wrapped in their own
inner try/except, and the outer handler returns a `None` status. -/
def delete_user (net : Except PyErr HttpResponse) :
    Except PyErr (Bool × Msg × Option Nat) :=
  tryCatch
    (do
      let r ← net
      if r.status = 200 then do
        let m ← tryCatch
          (do
            let j ← pyJsonOf r
            pyGetD j "message" (.jstr "User deleted successfully."))
          (fun _ => pure (JsonVal.jstr "User deleted successfully."))
        pure (true, Msg.detailMsg m, some 200)
      else do
        let d ← tryCatch
          (do
            let j ← pyJsonOf r
            pyGetD j "detail" (.jstr "Error deleting user."))
          (fun _ =>
            pure (if r.text ≠ "" then JsonVal.jstr r.text
                  else JsonVal.jstr "Error deleting user."))
        pure (false, Msg.detailMsg d, some r.status))
    (fun e => pure (false, Msg.networkError e, none))

/-- The units submitted to the thread pool:
`[user for user in users if user.get('id')]`
(contributions_page.py:158-161). -/
def submittedUsers (users : List User) : List User :=
  users.filter (fun u => u.id != "")

/-- The entry `analyze_user_activity_bulk` stores for a user, as a
function of that user and the network's behaviour. -/
def entryFor (o : String → DeriveOutcome) (u : User) : ActivityEntry :=
  { user := u
    total_contributions := (fetch_user_contributions_summary u.id (o u.id)).2
    has_contributions := decide ((fetch_user_contributions_summary u.id (o u.id)).2 > 0) }

theorem fetch_user_contributions_summary_fst (uid : String) (o : DeriveOutcome) :
    (fetch_user_contributions_summary uid o).1 = uid := by
  cases o with
  | exn => rfl
  | resp s b =>
    unfold fetch_user_contributions_summary
    by_cases h : s = 200 <;> cases b <;> simp [h]

theorem buildActivity_eq_foldl (o : String → DeriveOutcome) (completed : List User) :
    buildActivity o completed =
      completed.foldl (fun m u => dictInsert m u.id (entryFor o u)) [] := by
  unfold buildActivity entryFor
  congr 1
  funext m u
  simp only [fetch_user_contributions_summary_fst]

theorem lookupId_dictInsert {β : Type} (m : List (String × β)) (k : String) (v : β)
    (k2 : String) :
    lookupId (dictInsert m k v) k2 = if k2 = k then some v else lookupId m k2 := by
  induction m with
  | nil =>
    by_cases h : k2 = k
    · simp [dictInsert, lookupId, h]
    · have h2 : ¬ k = k2 := fun hh => h hh.symm
      simp [dictInsert, lookupId, h, h2]
  | cons p rest ih =>
    unfold dictInsert
    by_cases hp : p.1 = k
    · by_cases h : k2 = k
      · simp [hp, lookupId, h]
      · have h2 : ¬ k = k2 := fun hh => h hh.symm
        simp [hp, lookupId, h, h2]
    · by_cases h : p.1 = k2
      · have : ¬ k2 = k := fun hh => hp (h.trans hh)
        simp [hp, lookupId, h, this]
      · simp [hp, lookupId, h, ih]

theorem lookup_buildGo_isSome (o : String → DeriveOutcome) :
    ∀ (completed : List User) (acc : List (String × ActivityEntry)) (k : String),
      (lookupId (completed.foldl (fun m u => dictInsert m u.id (entryFor o u)) acc) k).isSome
        = true
        ↔ (∃ u ∈ completed, u.id = k) ∨ (lookupId acc k).isSome = true := by
  intro completed
  induction completed with
  | nil => simp
  | cons u rest ih =>
    intro acc k
    simp only [List.foldl_cons]
    rw [ih]
    rw [lookupId_dictInsert]
    by_cases h : k = u.id
    · simp [h]
    · simp only [if_neg h]
      constructor
      · rintro (h1 | h2)
        · exact Or.inl ⟨_, List.mem_cons_of_mem _ h1.choose_spec.1, h1.choose_spec.2⟩
        · exact Or.inr h2
      · rintro (⟨v, hv, hvk⟩ | h2)
        · rcases List.mem_cons.mp hv with rfl | hv2
          · exact absurd hvk.symm h
          · exact Or.inl ⟨v, hv2, hvk⟩
        · exact Or.inr h2

theorem lookup_buildGo_shape (o : String → DeriveOutcome) :
    ∀ (completed : List User) (acc : List (String × ActivityEntry)),
      (∀ k e, lookupId acc k = some e →
        e.total_contributions = (fetch_user_contributions_summary k (o k)).2 ∧
        e.has_contributions = decide ((fetch_user_contributions_summary k (o k)).2 > 0)) →
      ∀ k e,
        lookupId (completed.foldl (fun m u => dictInsert m u.id (entryFor o u)) acc) k
          = some e →
        e.total_contributions = (fetch_user_contributions_summary k (o k)).2 ∧
        e.has_contributions = decide ((fetch_user_contributions_summary k (o k)).2 > 0) := by
  intro completed
  induction completed with
  | nil => intro acc hacc k e h; exact hacc k e h
  | cons u rest ih =>
    intro acc hacc k e h
    simp only [List.foldl_cons] at h
    refine ih _ ?_ k e h
    intro k2 e2 h2
    rw [lookupId_dictInsert] at h2
    by_cases hk : k2 = u.id
    · rw [if_pos hk] at h2
      cases h2
      subst hk
      exact ⟨rfl, rfl⟩
    · rw [if_neg hk] at h2
      exact hacc k2 e2 h2

theorem fetch_failure_zero (uid : String) (o : DeriveOutcome)
    (h : o = .exn ∨ ∃ c b, o = .resp c b ∧ (c < 200 ∨ 300 ≤ c)) :
    (fetch_user_contributions_summary uid o).2 = 0 := by
  rcases h with h | ⟨c, b, h, hc⟩ <;> subst h
  · rfl
  · have hne : ¬ c = 200 := by omega
    cases b <;> simp [fetch_user_contributions_summary, hne]

/-- Claim C1: in the bulk enrichment engine, every entity whose derivation
call failed (raised exception — network error or timeout — or non-2xx
response) still gets an enrichment entry with metric 0 and
`has_contributions = false`, and every submitted entity (non-empty id)
gets an entry: a per-unit failure never removes an entity from the result
or aborts the batch. -/
theorem bulk_failure_isolated (users completed : List User)
    (o : String → DeriveOutcome) (u : User)
    (hperm : completed.Perm (submittedUsers users))
    (hu : u ∈ users) (hid : u.id ≠ "")
    (hfail : o u.id = .exn ∨ ∃ c b, o u.id = .resp c b ∧ (c < 200 ∨ 300 ≤ c)) :
    (∃ e, lookupId (buildActivity o completed) u.id = some e ∧
        e.total_contributions = 0 ∧ e.has_contributions = false) ∧
    ∀ v ∈ users, v.id ≠ "" →
      (lookupId (buildActivity o completed) v.id).isSome = true := by
  have hmem : ∀ v ∈ users, v.id ≠ "" → v ∈ completed := by
    intro v hv hvid
    rw [hperm.mem_iff]
    exact List.mem_filter.mpr ⟨hv, bne_iff_ne.mpr hvid⟩
  have hsome : ∀ v ∈ users, v.id ≠ "" →
      (lookupId (buildActivity o completed) v.id).isSome = true := by
    intro v hv hvid
    rw [buildActivity_eq_foldl]
    rw [lookup_buildGo_isSome]
    exact Or.inl ⟨v, hmem v hv hvid, rfl⟩
  refine ⟨?_, hsome⟩
  obtain ⟨e, he⟩ := Option.isSome_iff_exists.mp (hsome u hu hid)
  have hshape := lookup_buildGo_shape o completed [] (by intro k e2 h; cases h)
    u.id e (by rw [buildActivity_eq_foldl] at he; exact he)
  refine ⟨e, he, ?_, ?_⟩
  · rw [hshape.1, fetch_failure_zero u.id (o u.id) hfail]
  · rw [hshape.2, fetch_failure_zero u.id (o u.id) hfail]
    rfl

/-- Witness for C1 at a concrete batch: users a (failing, connection
error) and b (succeeding with 3 contributions), completing in order b, a. -/
theorem bulk_failure_isolated_witness :
    (∃ e, lookupId (buildActivity
        (fun i => if i = "a" then DeriveOutcome.exn
                  else DeriveOutcome.resp 200 (DeriveBody.dict (some 3)))
        [⟨"b"⟩, ⟨"a"⟩]) "a" = some e ∧
        e.total_contributions = 0 ∧ e.has_contributions = false) ∧
    ∀ v ∈ [User.mk "a", User.mk "b"], v.id ≠ "" →
      (lookupId (buildActivity
        (fun i => if i = "a" then DeriveOutcome.exn
                  else DeriveOutcome.resp 200 (DeriveBody.dict (some 3)))
        [⟨"b"⟩, ⟨"a"⟩]) v.id).isSome = true :=
  bulk_failure_isolated [⟨"a"⟩, ⟨"b"⟩] [⟨"b"⟩, ⟨"a"⟩]
    (fun i => if i = "a" then DeriveOutcome.exn
              else DeriveOutcome.resp 200 (DeriveBody.dict (some 3)))
    ⟨"a"⟩ (by decide) (by decide) (by decide) (Or.inl (by decide))

theorem dictInsert_of_fresh {β : Type} (m : List (String × β)) (k : String) (v : β)
    (h : ∀ p ∈ m, p.1 ≠ k) : dictInsert m k v = m ++ [(k, v)] := by
  induction m with
  | nil => rfl
  | cons p rest ih =>
    unfold dictInsert
    rw [if_neg (h p (List.mem_cons_self p rest))]
    rw [ih (fun q hq => h q (List.mem_cons_of_mem p hq))]
    rfl

theorem buildGo_eq_append (o : String → DeriveOutcome) :
    ∀ (completed : List User) (acc : List (String × ActivityEntry)),
      (∀ p ∈ acc, p.1 ∉ completed.map User.id) →
      (completed.map User.id).Nodup →
      completed.foldl (fun m u => dictInsert m u.id (entryFor o u)) acc
        = acc ++ completed.map (fun u => (u.id, entryFor o u)) := by
  intro completed
  induction completed with
  | nil => intro acc _ _; simp
  | cons u rest ih =>
    intro acc hacc hnd
    simp only [List.foldl_cons]
    have hfresh : ∀ p ∈ acc, p.1 ≠ u.id := by
      intro p hp
      have := hacc p hp
      simp only [List.map_cons, List.mem_cons] at this
      exact fun hh => this (Or.inl hh)
    rw [dictInsert_of_fresh acc u.id (entryFor o u) hfresh]
    have hnd2 : (rest.map User.id).Nodup := (List.nodup_cons.mp hnd).2
    have hu_not : u.id ∉ rest.map User.id := (List.nodup_cons.mp hnd).1
    rw [ih (acc ++ [(u.id, entryFor o u)]) ?_ hnd2]
    · simp
    · intro p hp
      rcases List.mem_append.mp hp with hp1 | hp2
      · have := hacc p hp1
        simp only [List.map_cons, List.mem_cons] at this
        exact fun hh => this (Or.inr hh)
      · simp only [List.mem_singleton] at hp2
        subst hp2
        exact hu_not

/-- With distinct submitted ids, the bulk engine's dict is exactly one
appended entry per completed unit, in completion order. -/
theorem buildActivity_eq_map (o : String → DeriveOutcome) (completed : List User)
    (hnd : (completed.map User.id).Nodup) :
    buildActivity o completed = completed.map (fun u => (u.id, entryFor o u)) := by
  rw [buildActivity_eq_foldl]
  rw [buildGo_eq_append o completed [] (by simp) hnd]
  rfl

theorem lookupId_map_entryFor (o : String → DeriveOutcome) :
    ∀ (completed : List User) (k : String),
      lookupId (completed.map (fun u => (u.id, entryFor o u))) k
        = (completed.find? (fun u => u.id == k)).map (fun u => entryFor o u) := by
  intro completed
  induction completed with
  | nil => intro k; rfl
  | cons u rest ih =>
    intro k
    simp only [List.map_cons, lookupId, List.find?_cons]
    by_cases h : u.id = k
    · simp [h]
    · have hb : (u.id == k) = false := beq_eq_false_iff_ne.mpr h
      simp [h, hb, ih]

theorem find?_id_perm {c₁ c₂ : List User} (hperm : c₁.Perm c₂)
    (hnd : (c₂.map User.id).Nodup) (k : String) :
    c₁.find? (fun u => u.id == k) = c₂.find? (fun u => u.id == k) := by
  match h1 : c₁.find? (fun u => u.id == k) with
  | none =>
    have h2 : c₂.find? (fun u => u.id == k) = none := by
      rw [List.find?_eq_none] at h1 ⊢
      intro x hx
      exact h1 x (hperm.mem_iff.mpr hx)
    rw [h2]
    exact h1
  | some u =>
    have hu_mem : u ∈ c₂ := hperm.mem_iff.mp (List.mem_of_find?_eq_some h1)
    have hu_p : u.id = k := by simpa using List.find?_some h1
    have hsome : (c₂.find? (fun v => v.id == k)).isSome := by
      rw [List.find?_isSome]
      exact ⟨u, hu_mem, by simpa using hu_p⟩
    obtain ⟨v, hv⟩ := Option.isSome_iff_exists.mp hsome
    have hv_mem : v ∈ c₂ := List.mem_of_find?_eq_some hv
    have hv_p : v.id = k := by simpa using List.find?_some hv
    have huv : u = v :=
      List.inj_on_of_nodup_map hnd hu_mem hv_mem (by rw [hu_p, hv_p])
    rw [hv, ← huv]
    exact h1

/-- Claim C2, counterexample: the map's contents are NOT independent of
which derivation calls fail.  Same one-entity collection, same completion
order; when the call succeeds with metric 1 the map holds `(a, 1, true)`,
when it fails the map holds `(a, 0, false)`. -/
theorem bulk_contents_depend_on_failures :
    lookupId (buildActivity
        (fun _ => DeriveOutcome.resp 200 (DeriveBody.dict (some 1))) [⟨"a"⟩]) "a"
      = some ⟨⟨"a"⟩, 1, true⟩ ∧
    lookupId (buildActivity (fun _ => DeriveOutcome.exn) [⟨"a"⟩]) "a"
      = some ⟨⟨"a"⟩, 0, false⟩ ∧
    buildActivity (fun _ => DeriveOutcome.resp 200 (DeriveBody.dict (some 1))) [⟨"a"⟩]
      ≠ buildActivity (fun _ => DeriveOutcome.exn) [⟨"a"⟩] := by
  refine ⟨rfl, rfl, ?_⟩
  decide

/-- Claim C2 as amended: for K entities with distinct non-empty ids the
enrichment map has exactly K entries, one per entity — every entity's id
is present and every key of the map is the id of one of the entities —
regardless of which derivation calls fail, of the worker-pool size, and
of the completion order; and the map — as a function from id to entry —
is independent of worker-pool size and completion order (for fixed
per-call network behaviour).  Which calls fail does affect the failing
entities' entries (metric 0), per the counterexample. -/
theorem bulk_map_complete_order_independent (users c₁ c₂ : List User)
    (o : String → DeriveOutcome) (s₁ s₂ : SessionState) (now₁ now₂ : Int)
    (w₁ w₂ : Nat)
    (hall : ∀ u ∈ users, u.id ≠ "")
    (hnd : (users.map User.id).Nodup)
    (h1 : c₁.Perm (submittedUsers users)) (h2 : c₂.Perm (submittedUsers users))
    (hm1 : analysis_cache_hit s₁ now₁ = false)
    (hm2 : analysis_cache_hit s₂ now₂ = false) :
    (analyze_user_activity_bulk s₁ now₁ o c₁ w₁).1.length = users.length ∧
    (∀ u ∈ users,
      (lookupId (analyze_user_activity_bulk s₁ now₁ o c₁ w₁).1 u.id).isSome = true) ∧
    (∀ k, (lookupId (analyze_user_activity_bulk s₁ now₁ o c₁ w₁).1 k).isSome = true →
      k ∈ users.map User.id) ∧
    ∀ k, lookupId (analyze_user_activity_bulk s₁ now₁ o c₁ w₁).1 k
        = lookupId (analyze_user_activity_bulk s₂ now₂ o c₂ w₂).1 k := by
  have hsub : submittedUsers users = users :=
    List.filter_eq_self.mpr (fun u hu => bne_iff_ne.mpr (hall u hu))
  rw [hsub] at h1 h2
  have hnd1 : (c₁.map User.id).Nodup := ((h1.map User.id).nodup_iff).mpr hnd
  have hnd2 : (c₂.map User.id).Nodup := ((h2.map User.id).nodup_iff).mpr hnd
  have e1 : (analyze_user_activity_bulk s₁ now₁ o c₁ w₁).1 = buildActivity o c₁ := by
    unfold analyze_user_activity_bulk
    rw [hm1]
    rfl
  have e2 : (analyze_user_activity_bulk s₂ now₂ o c₂ w₂).1 = buildActivity o c₂ := by
    unfold analyze_user_activity_bulk
    rw [hm2]
    rfl
  refine ⟨?_, ?_, ?_, ?_⟩
  · rw [e1, buildActivity_eq_map o c₁ hnd1, List.length_map]
    exact h1.length_eq
  · intro u hu
    rw [e1, buildActivity_eq_foldl, lookup_buildGo_isSome]
    exact Or.inl ⟨u, h1.mem_iff.mpr hu, rfl⟩
  · intro k hk
    rw [e1, buildActivity_eq_foldl, lookup_buildGo_isSome] at hk
    rcases hk with ⟨v, hv, hvk⟩ | habs
    · exact List.mem_map.mpr ⟨v, h1.mem_iff.mp hv, hvk⟩
    · simp [lookupId] at habs
  · intro k
    rw [e1, e2, buildActivity_eq_map o c₁ hnd1, buildActivity_eq_map o c₂ hnd2,
      lookupId_map_entryFor, lookupId_map_entryFor,
      find?_id_perm h1 hnd k, find?_id_perm h2 hnd k]

/-- Witness for the amended C2: two users, two completion orders, two
pool sizes, one failing call. -/
theorem bulk_map_complete_order_independent_witness :
    (analyze_user_activity_bulk ⟨none, none, none, none⟩ 0
      (fun i => if i = "a" then DeriveOutcome.exn
                else DeriveOutcome.resp 200 (DeriveBody.dict (some 2)))
      [⟨"a"⟩, ⟨"b"⟩] 20).1.length = 2 ∧
    (∀ u ∈ [User.mk "a", User.mk "b"],
      (lookupId (analyze_user_activity_bulk ⟨none, none, none, none⟩ 0
        (fun i => if i = "a" then DeriveOutcome.exn
                  else DeriveOutcome.resp 200 (DeriveBody.dict (some 2)))
        [⟨"a"⟩, ⟨"b"⟩] 20).1 u.id).isSome = true) ∧
    (∀ k, (lookupId (analyze_user_activity_bulk ⟨none, none, none, none⟩ 0
        (fun i => if i = "a" then DeriveOutcome.exn
                  else DeriveOutcome.resp 200 (DeriveBody.dict (some 2)))
        [⟨"a"⟩, ⟨"b"⟩] 20).1 k).isSome = true →
      k ∈ [User.mk "a", User.mk "b"].map User.id) ∧
    ∀ k, lookupId (analyze_user_activity_bulk ⟨none, none, none, none⟩ 0
      (fun i => if i = "a" then DeriveOutcome.exn
                else DeriveOutcome.resp 200 (DeriveBody.dict (some 2)))
      [⟨"a"⟩, ⟨"b"⟩] 20).1 k
      = lookupId (analyze_user_activity_bulk ⟨none, none, none, none⟩ 5
      (fun i => if i = "a" then DeriveOutcome.exn
                else DeriveOutcome.resp 200 (DeriveBody.dict (some 2)))
      [⟨"b"⟩, ⟨"a"⟩] 7).1 k :=
  bulk_map_complete_order_independent [⟨"a"⟩, ⟨"b"⟩] [⟨"a"⟩, ⟨"b"⟩] [⟨"b"⟩, ⟨"a"⟩]
    (fun i => if i = "a" then DeriveOutcome.exn
              else DeriveOutcome.resp 200 (DeriveBody.dict (some 2)))
    ⟨none, none, none, none⟩ ⟨none, none, none, none⟩ 0 5 20 7
    (by decide) (by decide) (by decide) (by decide) rfl rfl

/-- One unfolding step of the pagination loop. -/
theorem fetchLoop_succ {α : Type} (P : Nat) (server : Nat → Nat → PageResp α)
    (fuel skip : Nat) :
    fetchLoop P server (fuel + 1) skip =
      match server skip P with
      | .exn => some ([], .raised, 1)
      | .httpError _ => some ([], .httpErr, 1)
      | .nonList => some ([], .badFormat, 1)
      | .ok body =>
        if body.isEmpty then some ([], .done, 1)
        else if body.length < P then some (body, .done, 1)
        else
          match fetchLoop P server fuel (skip + P) with
          | none => none
          | some (items, ex, c) => some (body ++ items, ex, c + 1) := rfl

/-- Against a healthy backend, the loop started at offset `skip` returns
the remaining items and issues `remaining/P + 1` requests. -/
theorem fetchLoop_listServer {α : Type} (P : Nat) (hP : 0 < P) (full : List α) :
    ∀ (fuel skip : Nat), (full.drop skip).length < fuel * P →
      fetchLoop P (listServer full) fuel skip
        = some (full.drop skip, .done, (full.drop skip).length / P + 1) := by
  intro fuel
  induction fuel with
  | zero => intro skip h; simp at h
  | succ fuel ih =>
    intro skip h
    rw [fetchLoop_succ]
    simp only [listServer]
    by_cases hnil : full.drop skip = []
    · rw [hnil]
      simp [Nat.div_eq_of_lt hP]
    · by_cases hshort : (full.drop skip).length < P
      · rw [List.take_of_length_le (le_of_lt hshort)]
        rw [if_neg (by simpa [List.isEmpty_iff] using hnil)]
        rw [if_pos hshort]
        rw [Nat.div_eq_of_lt hshort]
      · push_neg at hshort
        have htake_len : ((full.drop skip).take P).length = P := by
          rw [List.length_take]
          exact Nat.min_eq_left hshort
        have hne : ¬ ((full.drop skip).take P).isEmpty = true := by
          rw [List.isEmpty_iff, ← List.length_eq_zero, htake_len]
          omega
        rw [if_neg hne]
        rw [if_neg (by rw [htake_len]; omega)]
        have hdroplen : (full.drop (skip + P)).length < fuel * P := by
          have h1 : (full.drop (skip + P)).length = full.length - (skip + P) :=
            List.length_drop _ _
          have h2 : (full.drop skip).length = full.length - skip :=
            List.length_drop _ _
          have h3 : (fuel + 1) * P = fuel * P + P := by ring
          omega
        have hsplit : full.drop (skip + P) = (full.drop skip).drop P := by
          rw [List.drop_drop, Nat.add_comm]
        have hjoin : (full.drop skip).take P ++ (full.drop skip).drop P
            = full.drop skip := List.take_append_drop P (full.drop skip)
        have hcount : ((full.drop skip).drop P).length / P + 1 + 1
            = (full.drop skip).length / P + 1 := by
          rw [List.length_drop]
          have hdiv := Nat.div_eq_sub_div hP hshort
          omega
        rw [ih (skip + P) hdroplen, hsplit]
        show some ((full.drop skip).take P ++ (full.drop skip).drop P, FetchExit.done,
            ((full.drop skip).drop P).length / P + 1 + 1)
          = some (full.drop skip, FetchExit.done, (full.drop skip).length / P + 1)
        rw [hjoin, hcount]

/-- `fetch_all items P`: the full pagination loop of
`fetch_all_users_batched` / `fetch_all_records` run against a healthy
backend holding `items`, with enough fuel for it to terminate on its own. -/
def fetch_all {α : Type} (items : List α) (P : Nat) :
    Option (List α × FetchExit × Nat) :=
  fetchLoop P (listServer items) (items.length + 1) 0

/-- Claim C3, counterexample: for N = 1 item and page size P = 1 (N an
exact positive multiple of P), the fetcher issues 2 page requests —
the full final page forces one extra trailing request that returns the
empty page — while ceil(N/P) = (1 + 1 - 1) / 1 = 1. -/
theorem fetch_all_extra_trailing_request :
    fetch_all [User.mk "a"] 1 = some ([User.mk "a"], .done, 2) ∧
    (1 + 1 - 1) / 1 = 1 ∧ (2 : Nat) ≠ 1 := by
  decide

/-- Claim C3 as amended: with every page request succeeding, the fetcher
returns exactly the N backend items in their original order and issues
exactly N/P + 1 page requests; that equals ceil(N/P) whenever P does not
divide N, and is ceil(N/P) + 1 — one extra trailing empty-page request —
when N is a multiple of P (including N = 0, where one request is
issued). -/
theorem fetch_all_requests_and_order {α : Type} (items : List α) (P : Nat)
    (hP : 0 < P) :
    fetch_all items P = some (items, .done, items.length / P + 1) ∧
    (¬ P ∣ items.length →
      items.length / P + 1 = (items.length + P - 1) / P) := by
  constructor
  · have hfuel : items.length < (items.length + 1) * P := by
      calc items.length < items.length + 1 := Nat.lt_succ_self _
        _ = (items.length + 1) * 1 := by ring
        _ ≤ (items.length + 1) * P := Nat.mul_le_mul_left _ hP
    have := fetchLoop_listServer P hP items (items.length + 1) 0 (by simpa using hfuel)
    simpa [fetch_all] using this
  · intro hndvd
    have hmod : items.length % P ≠ 0 := by
      intro hh
      exact hndvd (Nat.dvd_iff_mod_eq_zero.mpr hh)
    have hmodlt : items.length % P < P := Nat.mod_lt _ hP
    have h1 : items.length + P - 1
        = P * (items.length / P) + (items.length % P - 1 + P) := by
      have := Nat.div_add_mod items.length P
      omega
    rw [h1, Nat.mul_add_div hP]
    have h2 : (items.length % P - 1 + P) / P = 1 := by
      rw [Nat.add_div_right _ hP, Nat.div_eq_of_lt (by omega)]
    rw [h2]

/-- Witness for the amended C3: 3 items, page size 2 → pages of 2 and 1,
2 requests, all items in order. -/
theorem fetch_all_requests_and_order_witness :
    fetch_all [User.mk "a", User.mk "b", User.mk "c"] 2
      = some ([User.mk "a", User.mk "b", User.mk "c"], .done, 2) ∧
    (¬ 2 ∣ [User.mk "a", User.mk "b", User.mk "c"].length →
      [User.mk "a", User.mk "b", User.mk "c"].length / 2 + 1
        = ([User.mk "a", User.mk "b", User.mk "c"].length + 2 - 1) / 2) := by
  have h := fetch_all_requests_and_order
    [User.mk "a", User.mk "b", User.mk "c"] 2 (by decide)
  simpa using h

/-- Advancing the loop one page into a scripted backend is the same as
running it on the script's tail. -/
theorem scriptServer_shift {α : Type} (P : Nat) (hP : 0 < P) (x : PageResp α)
    (xs : List (PageResp α)) :
    ∀ (fuel skip : Nat),
      fetchLoop P (scriptServer P (x :: xs)) fuel (skip + P)
        = fetchLoop P (scriptServer P xs) fuel skip := by
  intro fuel
  induction fuel with
  | zero => intro skip; rfl
  | succ fuel ih =>
    intro skip
    rw [fetchLoop_succ, fetchLoop_succ]
    have hs : scriptServer P (x :: xs) (skip + P) P = scriptServer P xs skip P := by
      simp [scriptServer, Nat.add_div_right _ hP]
    rw [hs]
    cases hsv : scriptServer P xs skip P with
    | ok body =>
      by_cases hempty : body.isEmpty
      · simp [hempty]
      · by_cases hshort : body.length < P
        · simp [hempty, hshort]
        · simp only [hempty, hshort, if_false]
          rw [ih (skip + P)]
    | nonList => rfl
    | httpError c => rfl
    | exn => rfl

/-- Running the loop against a script of full pages followed by an HTTP
error: it stops at the error, has accumulated exactly the pages before it,
and reports the error exit. -/
theorem fetchLoop_script_error {α : Type} (P : Nat) (hP : 0 < P) :
    ∀ (goodPages : List (List α)) (code : Nat),
      (∀ p ∈ goodPages, p.length = P) →
      fetchLoop P
          (scriptServer P (goodPages.map PageResp.ok ++ [PageResp.httpError code]))
          (goodPages.length + 1) 0
        = some (goodPages.flatten, FetchExit.httpErr, goodPages.length + 1) := by
  intro goodPages
  induction goodPages with
  | nil =>
    intro code _
    rw [fetchLoop_succ]
    simp [scriptServer]
  | cons p ps ih =>
    intro code hfull
    simp only [List.map_cons, List.cons_append, List.length_cons]
    rw [fetchLoop_succ]
    have hs : scriptServer P
        (PageResp.ok p :: (List.map PageResp.ok ps ++ [PageResp.httpError code])) 0 P
        = PageResp.ok p := by
      simp [scriptServer]
    simp only [hs]
    have hp : p.length = P := hfull p (List.mem_cons_self _ _)
    have hne : ¬ p.isEmpty = true := by
      rw [List.isEmpty_iff, ← List.length_eq_zero, hp]
      omega
    rw [if_neg hne, if_neg (by rw [hp]; omega)]
    rw [scriptServer_shift P hP (PageResp.ok p)
      (List.map PageResp.ok ps ++ [PageResp.httpError code]) (ps.length + 1) 0]
    rw [ih code (fun q hq => hfull q (List.mem_cons_of_mem _ hq))]
    simp

/-- Claim C6: when a page request returns a non-2xx status, the paginated
fetcher stops immediately at that page (k prior full pages → exactly k+1
requests issued), returns exactly the items accumulated from the prior
successful pages — the concatenation of those pages, a prefix of the
backend's collection — and ends with the HTTP-error signal that the caller
surfaces via `st.error`. -/
theorem fetch_aborts_on_http_error (P code : Nat) (goodPages : List (List User))
    (hP : 0 < P) (hfull : ∀ p ∈ goodPages, p.length = P) :
    fetchLoop P
        (scriptServer P (goodPages.map PageResp.ok ++ [PageResp.httpError code]))
        (goodPages.length + 1) 0
      = some (goodPages.flatten, FetchExit.httpErr, goodPages.length + 1) :=
  fetchLoop_script_error P hP goodPages code hfull

/-- Witness for C6: two full pages of size 2, then a 500 → the four items
from the two pages, error exit, 3 requests. -/
theorem fetch_aborts_on_http_error_witness :
    fetchLoop 2
        (scriptServer 2 ([[User.mk "a", User.mk "b"], [User.mk "c", User.mk "d"]].map
            PageResp.ok ++ [PageResp.httpError 500]))
        3 0
      = some ([User.mk "a", User.mk "b", User.mk "c", User.mk "d"],
          FetchExit.httpErr, 3) := by
  have h := fetch_aborts_on_http_error 2 500
    [[User.mk "a", User.mk "b"], [User.mk "c", User.mk "d"]] (by decide) (by decide)
  simpa using h

/-- A non-stale, non-empty cache entry short-circuits
`fetch_all_users_batched`: the cached list is returned unchanged with no
page request. -/
theorem fetch_batched_hit (s : SessionState) (now : Int)
    (server : Nat → Nat → PageResp User) (P fuel : Nat) (c : List User)
    (hc : s.all_users_cache = some c) (hcne : c ≠ [])
    (hstale : is_cache_stale s now 30 = false) :
    fetch_all_users_batched s now server P fuel = some (c, s, 0) := by
  have hhit : users_cache_hit s now = true := by
    unfold users_cache_hit
    rw [hc, hstale]
    simp [List.isEmpty_iff, hcne]
  unfold fetch_all_users_batched
  rw [hhit]
  simp [hc]

/-- On a cache miss, `fetch_all_users_batched` runs the pagination loop
and — for every non-exception exit — stores the accumulated items with
the current timestamp and returns them. -/
theorem fetch_batched_miss (s : SessionState) (now : Int)
    (server : Nat → Nat → PageResp User) (P fuel : Nat)
    (items : List User) (ex : FetchExit) (cnt : Nat)
    (hmiss : users_cache_hit s now = false)
    (hloop : fetchLoop P server fuel 0 = some (items, ex, cnt))
    (hex : ex ≠ .raised) :
    fetch_all_users_batched s now server P fuel
      = some (items,
          { s with all_users_cache := some items,
                   all_users_cache_timestamp := some now }, cnt) := by
  unfold fetch_all_users_batched
  rw [hmiss]
  rw [hloop]
  cases ex with
  | raised => exact absurd rfl hex
  | done => rfl
  | httpErr => rfl
  | badFormat => rfl

/-- Claim C7, counterexample: a cache entry that exists, holds the empty
collection, and is perfectly fresh (stored at the very moment of the call)
does NOT short-circuit `get_or_fetch`: the truthiness test
`st.session_state.all_users_cache` fails on `[]`, so the fetcher is
invoked (1 page request) and its result is returned, not the cached
value. -/
theorem get_or_fetch_refetches_fresh_empty_cache :
    fetch_all_users_batched ⟨some [], some 1000, none, none⟩ 1000
        (listServer [User.mk "a"]) 5 2
      = some ([User.mk "a"],
          ⟨some [User.mk "a"], some 1000, none, none⟩, 1) ∧
    is_cache_stale ⟨some [], some 1000, none, none⟩ 1000 30 = false := by
  constructor
  · rfl
  · rfl

/-- Claim C7 as amended: if a cache entry exists, is NON-EMPTY, and is not
stale, `get_or_fetch` returns the cached collection unchanged with zero
page requests; in every other case (no entry, empty cached collection, or
stale entry) it runs the paginated fetcher and — unless the fetch raised —
stores the fetched collection with the current timestamp and returns it.
An existing-but-empty cached collection is treated as a miss, contrary to
the original claim. -/
theorem get_or_fetch_cache_behavior (s : SessionState) (now : Int)
    (server : Nat → Nat → PageResp User) (P fuel : Nat) :
    (∀ c, s.all_users_cache = some c → c ≠ [] →
      is_cache_stale s now 30 = false →
      fetch_all_users_batched s now server P fuel = some (c, s, 0)) ∧
    (users_cache_hit s now = false →
      ∀ items ex cnt, fetchLoop P server fuel 0 = some (items, ex, cnt) →
        ex ≠ .raised →
        fetch_all_users_batched s now server P fuel
          = some (items,
              { s with all_users_cache := some items,
                       all_users_cache_timestamp := some now }, cnt)) := by
  constructor
  · intro c hc hcne hstale
    exact fetch_batched_hit s now server P fuel c hc hcne hstale
  · intro hmiss items ex cnt hloop hex
    exact fetch_batched_miss s now server P fuel items ex cnt hmiss hloop hex

/-- Witness for the amended C7: a fresh non-empty cache entry is returned
with zero requests; a cold state fetches, stores and returns. -/
theorem get_or_fetch_cache_behavior_witness :
    fetch_all_users_batched ⟨some [User.mk "a"], some 0, none, none⟩ 60
        (listServer []) 5 1
      = some ([User.mk "a"], ⟨some [User.mk "a"], some 0, none, none⟩, 0) ∧
    fetch_all_users_batched ⟨none, none, none, none⟩ 7 (listServer [User.mk "b"]) 5 2
      = some ([User.mk "b"], ⟨some [User.mk "b"], some 7, none, none⟩, 1) := by
  constructor
  · exact (get_or_fetch_cache_behavior ⟨some [User.mk "a"], some 0, none, none⟩ 60
      (listServer []) 5 1).1 [User.mk "a"] rfl (by decide) (by decide)
  · exact (get_or_fetch_cache_behavior ⟨none, none, none, none⟩ 7
      (listServer [User.mk "b"]) 5 2).2 (by decide) [User.mk "b"] .done 1
      (by decide) (by decide)

/-- The exit the pagination loop reports for an aborting page response:
`httpErr` for a non-200 status, `badFormat` for a JSON body that is not a
list (the remaining constructors never occur as abort responses in the
theorems below). -/
def abortExit {α : Type} : PageResp α → FetchExit
  | .httpError _ => .httpErr
  | .nonList => .badFormat
  | .exn => .raised
  | .ok _ => .done

/-- Running the loop against a script of full pages followed by an
aborting response — a non-200 status or a non-list body: it stops at that
page, has accumulated exactly the pages before it, and reports the
corresponding abort exit. -/
theorem fetchLoop_script_abort {α : Type} (P : Nat) (hP : 0 < P) :
    ∀ (goodPages : List (List α)) (err : PageResp α),
      (err = PageResp.nonList ∨ ∃ code, err = PageResp.httpError code) →
      (∀ p ∈ goodPages, p.length = P) →
      fetchLoop P (scriptServer P (goodPages.map PageResp.ok ++ [err]))
          (goodPages.length + 1) 0
        = some (goodPages.flatten, abortExit err, goodPages.length + 1) := by
  intro goodPages
  induction goodPages with
  | nil =>
    intro err herr _
    rw [fetchLoop_succ]
    rcases herr with rfl | ⟨code, rfl⟩ <;> simp [scriptServer, abortExit]
  | cons p ps ih =>
    intro err herr hfull
    simp only [List.map_cons, List.cons_append, List.length_cons]
    rw [fetchLoop_succ]
    have hs : scriptServer P (PageResp.ok p :: (List.map PageResp.ok ps ++ [err])) 0 P
        = PageResp.ok p := by
      simp [scriptServer]
    simp only [hs]
    have hp : p.length = P := hfull p (List.mem_cons_self _ _)
    have hne : ¬ p.isEmpty = true := by
      rw [List.isEmpty_iff, ← List.length_eq_zero, hp]
      omega
    rw [if_neg hne, if_neg (by rw [hp]; omega)]
    rw [scriptServer_shift P hP (PageResp.ok p)
      (List.map PageResp.ok ps ++ [err]) (ps.length + 1) 0]
    rw [ih err herr (fun q hq => hfull q (List.mem_cons_of_mem _ hq))]
    simp

/-- Claim C10: when a paginated fetch aborts on a failed page — non-2xx
status or malformed (non-list) page body — the partial collection (the
flattening of the prior successful pages) is still written to the cache
with a fresh timestamp; any `get_or_fetch` within the 30-minute TTL then
returns that partial collection with zero page requests — the failed
fetch is not retried — unless the partial collection is empty, in which
case the cache guard fails and a refetch occurs. -/
theorem aborted_fetch_caches_partial_result (s : SessionState) (t0 t1 : Int)
    (P : Nat) (goodPages : List (List User)) (err : PageResp User)
    (server2 : Nat → Nat → PageResp User) (fuel2 : Nat)
    (hP : 0 < P)
    (herr : err = PageResp.nonList ∨ ∃ code, err = PageResp.httpError code)
    (hfull : ∀ p ∈ goodPages, p.length = P)
    (hmiss : users_cache_hit s t0 = false)
    (hfresh : t1 - t0 ≤ 30 * 60) :
    fetch_all_users_batched s t0
        (scriptServer P (goodPages.map PageResp.ok ++ [err]))
        P (goodPages.length + 1)
      = some (goodPages.flatten,
          { s with all_users_cache := some goodPages.flatten,
                   all_users_cache_timestamp := some t0 },
          goodPages.length + 1) ∧
    (goodPages.flatten ≠ [] →
      fetch_all_users_batched
          { s with all_users_cache := some goodPages.flatten,
                   all_users_cache_timestamp := some t0 } t1 server2 P fuel2
        = some (goodPages.flatten,
            { s with all_users_cache := some goodPages.flatten,
                     all_users_cache_timestamp := some t0 }, 0)) ∧
    (goodPages.flatten = [] →
      users_cache_hit
        { s with all_users_cache := some goodPages.flatten,
                 all_users_cache_timestamp := some t0 } t1 = false) := by
  refine ⟨?_, ?_, ?_⟩
  · refine fetch_batched_miss s t0 _ P (goodPages.length + 1)
      goodPages.flatten (abortExit err) (goodPages.length + 1) hmiss
      (fetchLoop_script_abort P hP goodPages err herr hfull) ?_
    rcases herr with rfl | ⟨code, rfl⟩ <;> simp [abortExit]
  · intro hne
    refine fetch_batched_hit _ t1 server2 P fuel2 goodPages.flatten rfl hne ?_
    unfold is_cache_stale
    simp only []
    rw [decide_eq_false_iff_not]
    omega
  · intro hempty
    unfold users_cache_hit
    rw [hempty]
    simp

/-- Witness for C10, exercising both abort causes: one full page of one
user then a 403 — the cached user is served 10 minutes later with no
request — and one full page of one user then a non-list body, with an
empty-result variant (no good pages before a non-list body) whose cached
empty list fails the cache guard. -/
theorem aborted_fetch_caches_partial_result_witness :
    (fetch_all_users_batched ⟨none, none, none, none⟩ 100
        (scriptServer 1 ([[User.mk "a"]].map PageResp.ok ++ [PageResp.httpError 403]))
        1 2
      = some ([User.mk "a"],
          ⟨some [User.mk "a"], some 100, none, none⟩, 2)) ∧
    ([User.mk "a"] ≠ ([] : List User) →
      fetch_all_users_batched ⟨some [User.mk "a"], some 100, none, none⟩ 700
          (listServer []) 1 1
        = some ([User.mk "a"], ⟨some [User.mk "a"], some 100, none, none⟩, 0)) ∧
    (fetch_all_users_batched ⟨none, none, none, none⟩ 100
        (scriptServer 1 ([[User.mk "b"]].map PageResp.ok ++ [PageResp.nonList]))
        1 2
      = some ([User.mk "b"],
          ⟨some [User.mk "b"], some 100, none, none⟩, 2)) ∧
    (([] : List User) = [] →
      users_cache_hit ⟨some [], some 100, none, none⟩ 700 = false) := by
  have h1 := aborted_fetch_caches_partial_result ⟨none, none, none, none⟩ 100 700
    1 [[User.mk "a"]] (PageResp.httpError 403) (listServer []) 1 (by decide)
    (Or.inr ⟨403, rfl⟩) (by decide) (by decide) (by omega)
  have h2 := aborted_fetch_caches_partial_result ⟨none, none, none, none⟩ 100 700
    1 [[User.mk "b"]] PageResp.nonList (listServer []) 1 (by decide)
    (Or.inl rfl) (by decide) (by decide) (by omega)
  have h3 := aborted_fetch_caches_partial_result ⟨none, none, none, none⟩ 100 700
    1 [] PageResp.nonList (listServer []) 1 (by decide)
    (Or.inl rfl) (by decide) (by decide) (by omega)
  exact ⟨by simpa using h1.1, fun hne => by simpa using h1.2.1 (by simp),
    by simpa using h2.1, fun hemp => by simpa using h3.2.2 (by simp)⟩

/-- Claim C5, divergence evidence (the code contradicts the claim/spec):
`analyze_user_activity_bulk` gates its cache on
`is_cache_stale(max_age_minutes=15)`, which reads the BASE cache
timestamp `all_users_cache_timestamp` — never the
`activity_analysis_timestamp` it stores.  First conjunct: an enrichment
cache whose own timestamp is 20 minutes old (-200 at now = 1000) is
REUSED because the base timestamp is only 60 s old.  Last conjunct:
conversely, an enrichment cache only 60 s old is REBUILT when the base
timestamp is 20 minutes old. -/
theorem enrichment_ttl_reads_base_timestamp :
    analyze_user_activity_bulk
        ⟨some [User.mk "a"], some 940,
         some [("old", ⟨⟨"old"⟩, 7, true⟩)], some (-200)⟩ 1000
        (fun _ => DeriveOutcome.exn) [User.mk "a"] 20
      = ([("old", ⟨⟨"old"⟩, 7, true⟩)],
         ⟨some [User.mk "a"], some 940,
          some [("old", ⟨⟨"old"⟩, 7, true⟩)], some (-200)⟩) ∧
    ((1000 : Int) - (-200) > 15 * 60) ∧
    ((1000 : Int) - 940 ≤ 15 * 60) ∧
    (analyze_user_activity_bulk
        ⟨some [User.mk "a"], some (-200),
         some [("old", ⟨⟨"old"⟩, 7, true⟩)], some 940⟩ 1000
        (fun _ => DeriveOutcome.exn) [User.mk "a"] 20).1
      = buildActivity (fun _ => DeriveOutcome.exn) [User.mk "a"] ∧
    ((1000 : Int) - 940 ≤ 15 * 60) :=
  ⟨rfl, by decide, by decide, rfl, by decide⟩

/-- Membership in an insertion step of the stable descending sort. -/
theorem mem_insertDesc (x z : User × Nat) (l : List (User × Nat)) :
    z ∈ insertDesc x l ↔ z = x ∨ z ∈ l := by
  induction l with
  | nil => simp [insertDesc]
  | cons y ys ih =>
    unfold insertDesc
    by_cases h : y.2 ≤ x.2
    · simp [h]
    · simp only [if_neg h, List.mem_cons, ih]
      tauto

theorem insertDesc_perm (x : User × Nat) (l : List (User × Nat)) :
    (insertDesc x l).Perm (x :: l) := by
  induction l with
  | nil => exact List.Perm.refl _
  | cons y ys ih =>
    unfold insertDesc
    by_cases h : y.2 ≤ x.2
    · simp [h]
    · rw [if_neg h]
      exact (ih.cons y).trans (List.Perm.swap x y ys)

theorem sortDesc_perm (l : List (User × Nat)) : (sortDesc l).Perm l := by
  induction l with
  | nil => exact List.Perm.refl _
  | cons a l ih =>
    show (insertDesc a (sortDesc l)).Perm (a :: l)
    exact (insertDesc_perm a (sortDesc l)).trans (ih.cons a)

theorem sorted_insertDesc (x : User × Nat) (l : List (User × Nat))
    (h : l.Pairwise (fun a b => b.2 ≤ a.2)) :
    (insertDesc x l).Pairwise (fun a b => b.2 ≤ a.2) := by
  induction l with
  | nil => simp [insertDesc]
  | cons y ys ih =>
    obtain ⟨hy, hys⟩ := List.pairwise_cons.mp h
    unfold insertDesc
    by_cases hle : y.2 ≤ x.2
    · rw [if_pos hle]
      refine List.pairwise_cons.mpr ⟨?_, h⟩
      intro z hz
      rcases List.mem_cons.mp hz with rfl | hz2
      · exact hle
      · exact le_trans (hy z hz2) hle
    · rw [if_neg hle]
      refine List.pairwise_cons.mpr ⟨?_, ih hys⟩
      intro z hz
      rcases (mem_insertDesc x z ys).mp hz with rfl | hz2
      · omega
      · exact hy z hz2

theorem sortDesc_sorted (l : List (User × Nat)) :
    (sortDesc l).Pairwise (fun a b => b.2 ≤ a.2) := by
  induction l with
  | nil => simp [sortDesc]
  | cons a l ih => exact sorted_insertDesc a (sortDesc l) ih

/-- Stability of one insertion step: the elements of any fixed metric `m`
keep their relative order (the inserted element, which comes first in the
input, ends up before every equal-metric element). -/
theorem filter_insertDesc (x : User × Nat) (l : List (User × Nat)) (m : Nat) :
    (insertDesc x l).filter (fun e => e.2 == m)
      = if x.2 = m then x :: l.filter (fun e => e.2 == m)
        else l.filter (fun e => e.2 == m) := by
  induction l with
  | nil =>
    by_cases h : x.2 = m <;> simp [insertDesc, h]
  | cons y ys ih =>
    unfold insertDesc
    by_cases hle : y.2 ≤ x.2
    · rw [if_pos hle]
      by_cases hx : x.2 = m <;> by_cases hy : y.2 = m <;>
        simp [hx, hy, List.filter_cons]
    · rw [if_neg hle]
      by_cases hx : x.2 = m
      · have hy : ¬ y.2 = m := by omega
        simp [List.filter_cons, hx, hy, ih]
      · by_cases hy : y.2 = m <;> simp [List.filter_cons, hx, hy, ih]

/-- Stability of the whole sort: for every metric value, the sorted
sequence lists the elements of that metric in exactly their input order. -/
theorem filter_sortDesc (l : List (User × Nat)) (m : Nat) :
    (sortDesc l).filter (fun e => e.2 == m) = l.filter (fun e => e.2 == m) := by
  induction l with
  | nil => rfl
  | cons a l ih =>
    show (insertDesc a (sortDesc l)).filter (fun e => e.2 == m) = _
    rw [filter_insertDesc]
    by_cases ha : a.2 = m
    · simp [List.filter_cons, ha, ih]
    · simp [List.filter_cons, ha, ih]

/-- Claim C4, counterexample: ties are broken by the enrichment map's
insertion order — the thread pool's completion order — not by the original
collection order.  Original collection [A, B, C] (A before B), metrics
A=5, B=5, C=3; completion order [B, A, C] is a permutation of the
submitted users, yet `top_n(map, 2)` returns [(B,5), (A,5)], not the
claimed [(A,5), (B,5)]. -/
theorem top_n_tie_not_original_order :
    ([User.mk "B", User.mk "A", User.mk "C"]).Perm
        (submittedUsers [⟨"A"⟩, ⟨"B"⟩, ⟨"C"⟩]) ∧
    top_n (buildActivity
        (fun i => DeriveOutcome.resp 200 (DeriveBody.dict (some (if i = "C" then 3 else 5))))
        [⟨"B"⟩, ⟨"A"⟩, ⟨"C"⟩]) 2
      = [(⟨"B"⟩, 5), (⟨"A"⟩, 5)] ∧
    [(User.mk "B", 5), (User.mk "A", 5)] ≠ [(User.mk "A", 5), (User.mk "B", 5)] := by
  decide

/-- Claim C4 as amended: `top_n` returns entries sorted by metric
descending (a stable sort), with ties broken by the order in which entries
were inserted into the enrichment map — the completion order of the
concurrent units — rather than the original collection order: for every
metric value the sort preserves the map's relative order (filter
stability), and the sort is a permutation of the map's value pairs. -/
theorem top_n_sorted_and_stable (user_activity : List (String × ActivityEntry))
    (n m : Nat) :
    (top_n user_activity n).Pairwise (fun a b => b.2 ≤ a.2) ∧
    (sortDesc (user_activity.map (fun p => (p.2.user, p.2.total_contributions)))).filter
        (fun e => e.2 == m)
      = (user_activity.map (fun p => (p.2.user, p.2.total_contributions))).filter
          (fun e => e.2 == m) ∧
    (sortDesc (user_activity.map (fun p => (p.2.user, p.2.total_contributions)))).Perm
      (user_activity.map (fun p => (p.2.user, p.2.total_contributions))) := by
  refine ⟨?_, filter_sortDesc _ m, sortDesc_perm _⟩
  exact List.Pairwise.sublist (List.take_sublist n _) (sortDesc_sorted _)

/-- Claim C8, counterexample: the rate's denominator is the BASE
collection size, not the enrichment map's size.  Two users, one with an
empty id (so it is never submitted for enrichment), the other active:
the code computes 1/2 · 100 = 50, while the claimed map-relative formula
gives 1/1 · 100 = 100. -/
theorem activity_rate_denominator_mismatch :
    Option.map ActivityStats.activity_rate
        (get_user_activity_statistics_core [⟨"a"⟩, ⟨""⟩]
          (buildActivity (fun _ => DeriveOutcome.resp 200 (DeriveBody.dict (some 1)))
            [⟨"a"⟩]))
      = some 50 ∧
    activityRateClaimed
        (buildActivity (fun _ => DeriveOutcome.resp 200 (DeriveBody.dict (some 1)))
          [⟨"a"⟩])
      = 100 ∧
    (50 : ℚ) ≠ 100 := by
  refine ⟨?_, ?_, by norm_num⟩
  · show some ((1 : ℚ) / 2 * 100) = some 50
    norm_num
  · show (1 : ℚ) / 1 * 100 = 100
    norm_num

/-- Claim C8 as amended: for a non-empty base collection the activity
rate is the count of enrichment entries with `has_contributions` divided
by the size of the BASE collection, times 100 (an empty base collection
yields no statistics at all — the function returns `None`); when every
entity of the collection has a non-empty id and the ids are distinct, the
enrichment map has exactly as many entries as the collection and the rate
coincides with the claimed map-relative formula. -/
theorem activity_rate_over_base_collection (all_users : List User)
    (user_activity : List (String × ActivityEntry)) :
    (all_users = [] →
      get_user_activity_statistics_core all_users user_activity = none) ∧
    (all_users ≠ [] →
      Option.map ActivityStats.activity_rate
          (get_user_activity_statistics_core all_users user_activity)
        = some (((user_activity.filter (fun p => p.2.has_contributions)).length : ℚ)
            / (all_users.length : ℚ) * 100)) ∧
    (all_users ≠ [] →
      ∀ (o : String → DeriveOutcome) (completed : List User),
      (∀ u ∈ all_users, u.id ≠ "") →
      (all_users.map User.id).Nodup →
      completed.Perm (submittedUsers all_users) →
      Option.map ActivityStats.activity_rate
          (get_user_activity_statistics_core all_users (buildActivity o completed))
        = some (activityRateClaimed (buildActivity o completed))) := by
  have hcore : all_users ≠ [] → ∀ ua : List (String × ActivityEntry),
      Option.map ActivityStats.activity_rate
          (get_user_activity_statistics_core all_users ua)
        = some (((ua.filter (fun p => p.2.has_contributions)).length : ℚ)
            / (all_users.length : ℚ) * 100) := by
    intro hne ua
    have hlen : 0 < all_users.length := List.length_pos.mpr hne
    unfold get_user_activity_statistics_core
    rw [if_neg (by simpa [List.isEmpty_iff] using hne)]
    simp only [Option.map_some]
    rw [if_pos hlen]
    rfl
  refine ⟨?_, fun hne => hcore hne user_activity, ?_⟩
  · intro h
    subst h
    rfl
  · intro hne o completed hall hnd hperm
    have hsub : submittedUsers all_users = all_users :=
      List.filter_eq_self.mpr (fun u hu => bne_iff_ne.mpr (hall u hu))
    rw [hsub] at hperm
    have hndc : (completed.map User.id).Nodup :=
      ((hperm.map User.id).nodup_iff).mpr hnd
    have hmaplen : (buildActivity o completed).length = all_users.length := by
      rw [buildActivity_eq_map o completed hndc, List.length_map]
      exact hperm.length_eq
    have hlen : 0 < all_users.length := List.length_pos.mpr hne
    rw [hcore hne (buildActivity o completed)]
    unfold activityRateClaimed
    rw [hmaplen, if_neg (by omega)]

/-- Witness for the amended C8: an empty base collection yields no
statistics; one active user with a non-empty id gives both the code's
rate and the map-relative rate as 100. -/
theorem activity_rate_over_base_collection_witness :
    (get_user_activity_statistics_core []
        [("x", ⟨⟨"x"⟩, 2, true⟩)] = none) ∧
    (Option.map ActivityStats.activity_rate
        (get_user_activity_statistics_core [User.mk "a"]
          [("x", ⟨⟨"x"⟩, 2, true⟩)])
      = some ((([("x", (⟨⟨"x"⟩, 2, true⟩ : ActivityEntry))].filter
            (fun p => p.2.has_contributions)).length : ℚ)
          / (([User.mk "a"] : List User).length : ℚ) * 100)) ∧
    Option.map ActivityStats.activity_rate
        (get_user_activity_statistics_core [User.mk "a"]
          (buildActivity (fun _ => DeriveOutcome.resp 200 (DeriveBody.dict (some 2)))
            [User.mk "a"]))
      = some (activityRateClaimed
          (buildActivity (fun _ => DeriveOutcome.resp 200 (DeriveBody.dict (some 2)))
            [User.mk "a"])) := by
  have h0 := activity_rate_over_base_collection []
    [("x", ⟨⟨"x"⟩, 2, true⟩)]
  have h := activity_rate_over_base_collection [User.mk "a"]
    [("x", ⟨⟨"x"⟩, 2, true⟩)]
  exact ⟨h0.1 rfl, h.2.1 (by decide),
    h.2.2 (by decide) (fun _ => DeriveOutcome.resp 200 (DeriveBody.dict (some 2)))
      [User.mk "a"] (by decide) (by decide) (by decide)⟩

theorem tryCatch_pure_handler_isOk {α : Type} (x : Except PyErr α) (f : PyErr → α) :
    (tryCatch x (fun e => pure (f e))).isOk = true := by
  cases x <;> rfl

/-- Claim C9: every API-client operation is total at its boundary — for
every network behaviour (response with any status and any body, including
an undecodable one, or a raised exception) each operation produces a
result value and never lets an exception escape (`isOk` of the `Except`
embedding, whose `error` constructor would mark an uncaught Python
exception). -/
theorem api_client_never_raises (net : Except PyErr HttpResponse)
    (payload : JsonVal) :
    (fetch_data net).isOk = true ∧
    (create_data net payload).isOk = true ∧
    (update_data net payload).isOk = true ∧
    (delete_data net).isOk = true ∧
    (create_user net).isOk = true ∧
    (delete_user net).isOk = true := by
  refine ⟨?_, ?_, ?_, ?_, ?_, ?_⟩
  · exact tryCatch_pure_handler_isOk _ _
  · exact tryCatch_pure_handler_isOk _ _
  · exact tryCatch_pure_handler_isOk _ _
  · exact tryCatch_pure_handler_isOk _ _
  · exact tryCatch_pure_handler_isOk _ _
  · exact tryCatch_pure_handler_isOk _ _
